import Mathlib

/-!
Shallow embedding of the status/diagnostic logic of the LuCI tunnel-manager
views in this repository:

* `luci-app-udp2raw/htdocs/luci-static/resources/view/udp2raw/status.js`
* `luci-app-phantun/htdocs/luci-static/resources/view/phantun/status.js`
  (three concatenated variants; the first is cited as "v1", the second as "v2")
* `unnamed/part_004` (two variants of the udp-tunnel status page; the first
  is v2.7 with `checkIptables`, the second has `stripAnsi` and a
  `renderStatusTable` identical to the udp2raw one)

JavaScript strings are modelled as Lean `String`/`List Char`; the regular
expressions used by the views are deterministic (adjacent sub-patterns use
disjoint character classes), so each is embedded as a direct scanner with
the same match semantics.  JS `Date` values are modelled as seconds on a
linear civil-time scale (the local-timezone offset is constant and cancels
in every comparison the code performs).
-/

/-! ### JS character classes and small string primitives -/

/-- JS `\w` character class (ASCII): letters, digits, underscore. -/
def isWordC (c : Char) : Bool := c.isAlphanum || c = '_'

/-- JS `\d` character class. -/
def isDigitC (c : Char) : Bool := c.isDigit

/-- JS `\s` character class, restricted to the ASCII whitespace actually
occurring in the processed CLI output. -/
def isWsC (c : Char) : Bool :=
  c = ' ' || c = '\t' || c = '\n' || c = '\r' || c = '\x0b' || c = '\x0c'

/-- `startsWithPat pat l` : `pat` is a prefix of `l` (character-exact). -/
def startsWithPat : List Char → List Char → Bool
  | [], _ => true
  | _ :: _, [] => false
  | p :: ps, c :: cs => p == c && startsWithPat ps cs

/-- `hasSubL pat l` : `pat` occurs as a contiguous substring of `l`
(JS `indexOf(pat) !== -1`). -/
def hasSubL (pat : List Char) : List Char → Bool
  | [] => startsWithPat pat []
  | l@(_ :: rest) => startsWithPat pat l || hasSubL pat rest

/-- JS `String.prototype.indexOf(pat) !== -1` on Lean strings. -/
def hasSub (s pat : String) : Bool := hasSubL pat.data s.data

/-- JS `String.prototype.trim()` (ASCII whitespace). -/
def jsTrimL (l : List Char) : List Char :=
  ((l.dropWhile isWsC).reverse.dropWhile isWsC).reverse

/-- JS `trim()` on a `String`. -/
def jsTrim (s : String) : String := String.mk (jsTrimL s.data)

/-! ### Generic global-replace-with-empty scanner

All four `.replace(re, '')` calls in `cleanText`/`stripAnsi` share one
shape: a one-character trigger opens a candidate match, a recognizer either
accepts a suffix (consuming `n` further characters) or rejects.  JS global
replace scans left to right and continues after each removed match, or one
character further after a position with no match; `scrub` does the same. -/

/-- Fuel-indexed worker for `scrub`; fuel at least the list length makes the
fuel-exhausted branch unreachable. -/
def scrubGo (trig : Char → Bool) (recog : List Char → Option Nat) :
    Nat → List Char → List Char
  | _, [] => []
  | 0, l => l
  | fuel + 1, c :: rest =>
    if trig c then
      match recog rest with
      | some n => scrubGo trig recog fuel (rest.drop n)
      | none => c :: scrubGo trig recog fuel rest
    else c :: scrubGo trig recog fuel rest

/-- Remove every match of the pattern "trigger character followed by a
suffix accepted by `recog`" (`recog rest = some n` consumes `n` characters
of `rest`), keeping everything else. -/
def scrub (trig : Char → Bool) (recog : List Char → Option Nat)
    (l : List Char) : List Char :=
  scrubGo trig recog l.length l

/-- Does the `scrub` pattern match anywhere in the list? -/
def hasPat (trig : Char → Bool) (recog : List Char → Option Nat) :
    List Char → Bool
  | [] => false
  | c :: rest => (trig c && (recog rest).isSome) || hasPat trig recog rest

theorem scrubGo_of_not_hasPat (trig : Char → Bool)
    (recog : List Char → Option Nat) :
    ∀ (fuel : Nat) (l : List Char), hasPat trig recog l = false →
      scrubGo trig recog fuel l = l := by
  intro fuel
  induction fuel with
  | zero => intro l _; cases l <;> rfl
  | succ n ih =>
    intro l h
    cases l with
    | nil => rfl
    | cons c rest =>
      simp only [hasPat, Bool.or_eq_false_iff, Bool.and_eq_false_iff] at h
      rcases h with ⟨hc, hrest⟩
      rcases hc with hc | hr
      · simp [scrubGo, hc, ih rest hrest]
      · cases hrec : recog rest with
        | none => by_cases htc : trig c <;> simp [scrubGo, htc, hrec, ih rest hrest]
        | some m => rw [hrec] at hr; simp at hr

theorem scrub_of_not_hasPat (trig : Char → Bool)
    (recog : List Char → Option Nat) (l : List Char)
    (h : hasPat trig recog l = false) : scrub trig recog l = l :=
  scrubGo_of_not_hasPat trig recog l.length l h

/-! ### `cleanText` (phantun status.js, lines 35-38) and
`stripAnsi` (part_004, lines 457-466) -/

/-- The ESC byte `\x1B`. -/
def escC : Char := '\x1B'

/-- Recognizer for the tail of a CSI sequence: after ESC, expect `[`, a run
of `[0-9;]`, then one ASCII letter (regex `\x1B\[[0-9;]*[a-zA-Z]`). -/
def csiTail (l : List Char) : Option Nat :=
  match l with
  | '[' :: rest =>
    let run := rest.takeWhile (fun c => isDigitC c || c = ';')
    match rest.drop run.length with
    | c :: _ => if c.isAlpha then some (1 + run.length + 1) else none
    | [] => none
  | _ => none

/-- Recognizer for the tail of an OSC sequence: after ESC, expect `]`, a run
of non-BEL characters, then BEL (regex `\x1B\][^\x07]*\x07`). -/
def oscTail (l : List Char) : Option Nat :=
  match l with
  | ']' :: rest =>
    let run := rest.takeWhile (fun c => c ≠ '\x07')
    match rest.drop run.length with
    | _ :: _ => some (1 + run.length + 1)
    | [] => none
  | _ => none

/-- Recognizer for the tail of a bare colour residue: after `[`, a run of
`[0-9;]`, then `m` (regex `\[([0-9;]*)m`). -/
def colorTail (l : List Char) : Option Nat :=
  let run := l.takeWhile (fun c => isDigitC c || c = ';')
  match l.drop run.length with
  | c :: _ => if c = 'm' then some (run.length + 1) else none
  | [] => none

/-- `.replace(/\x1B\[[0-9;]*[a-zA-Z]/g, '')`. -/
def stripCSI (l : List Char) : List Char := scrub (· = escC) csiTail l

/-- `.replace(/\x1B\][^\x07]*\x07/g, '')`. -/
def stripOSC (l : List Char) : List Char := scrub (· = escC) oscTail l

/-- `.replace(/\[([0-9;]*)m/g, '')`. -/
def stripColor (l : List Char) : List Char := scrub (· = '[') colorTail l

/-- `.replace(/\x1B/g, '')`. -/
def stripEsc (l : List Char) : List Char := scrub (· = escC) (fun _ => some 0) l

/-- phantun `cleanText`: empty/falsy input maps to `''`; otherwise strip CSI
sequences and trim. -/
def cleanText (s : String) : String :=
  if s = "" then "" else String.mk (jsTrimL (stripCSI s.data))

/-- part_004 `stripAnsi`: strip CSI, then OSC, then bare colour residue,
then stray ESC bytes, then trim. -/
def stripAnsi (s : String) : String :=
  if s = "" then ""
  else String.mk (jsTrimL (stripEsc (stripColor (stripOSC (stripCSI s.data)))))

/-! ### `parseLogTime` (phantun status.js, lines 196-216 / 784-788)

Regex `(\w{3})\s+(\w{3})\s+(\d+)\s+(\d+):(\d+):(\d+)\s+(\d{4})`, searched
left to right.  Every pair of adjacent sub-patterns uses disjoint character
classes, so matching at a position is deterministic: exactly three word
characters, a maximal whitespace run, and maximal digit runs. -/

/-- Captured groups of the timestamp regex (group 1, the weekday, is never
used by the code and is not retained). -/
structure TsGroups where
  mon : String
  day : Nat
  hour : Nat
  minute : Nat
  second : Nat
  year : Nat
deriving DecidableEq

/-- `\w{3}`: exactly three word characters. -/
def takeWord3 : List Char → Option (List Char × List Char)
  | c1 :: c2 :: c3 :: rest =>
    if isWordC c1 && isWordC c2 && isWordC c3 then some ([c1, c2, c3], rest)
    else none
  | _ => none

/-- `\s+`: at least one whitespace character, maximal run. -/
def eatWs1 (l : List Char) : Option (List Char) :=
  match l with
  | c :: _ => if isWsC c then some (l.dropWhile isWsC) else none
  | [] => none

/-- `parseInt` on a run of decimal digits. -/
def digitsToNat (l : List Char) : Nat :=
  l.foldl (fun n c => n * 10 + (c.toNat - 48)) 0

/-- `(\d+)`: at least one digit, maximal run, value via `parseInt`. -/
def eatDigits1 (l : List Char) : Option (Nat × List Char) :=
  let run := l.takeWhile isDigitC
  if run.isEmpty then none else some (digitsToNat run, l.drop run.length)

/-- A single literal character. -/
def expectC (c : Char) : List Char → Option (List Char)
  | d :: rest => if d = c then some rest else none
  | [] => none

/-- `(\d{4})`: exactly four digits (no trailing boundary required). -/
def eat4Digits : List Char → Option Nat
  | c1 :: c2 :: c3 :: c4 :: _ =>
    if isDigitC c1 && isDigitC c2 && isDigitC c3 && isDigitC c4 then
      some (digitsToNat [c1, c2, c3, c4])
    else none
  | _ => none

/-- Attempt the full timestamp pattern at the head of the list. -/
def tsMatchAt (l : List Char) : Option TsGroups := do
  let (_, r1) ← takeWord3 l
  let r2 ← eatWs1 r1
  let (monCs, r3) ← takeWord3 r2
  let r4 ← eatWs1 r3
  let (day, r5) ← eatDigits1 r4
  let r6 ← eatWs1 r5
  let (h, r7) ← eatDigits1 r6
  let r8 ← expectC ':' r7
  let (mi, r9) ← eatDigits1 r8
  let r10 ← expectC ':' r9
  let (sec, r11) ← eatDigits1 r10
  let r12 ← eatWs1 r11
  let y ← eat4Digits r12
  pure ⟨String.mk monCs, day, h, mi, sec, y⟩

/-- Leftmost match of the timestamp pattern (JS `String.prototype.match`
without the `g` flag). -/
def findTs : List Char → Option TsGroups
  | [] => none
  | l@(_ :: rest) =>
    match tsMatchAt l with
    | some g => some g
    | none => findTs rest

/-- The `months` table of `parseLogTime` (case-sensitive keys). -/
def monthTable (s : String) : Option Nat :=
  if s = "Jan" then some 0 else if s = "Feb" then some 1
  else if s = "Mar" then some 2 else if s = "Apr" then some 3
  else if s = "May" then some 4 else if s = "Jun" then some 5
  else if s = "Jul" then some 6 else if s = "Aug" then some 7
  else if s = "Sep" then some 8 else if s = "Oct" then some 9
  else if s = "Nov" then some 10 else if s = "Dec" then some 11
  else none

/-- Days from civil epoch 1970-01-01 for year/month(1-12)/day, the standard
era-based calendar computation (all intermediate operands nonnegative for
the years produced by a `\d{4}` match). -/
def daysFromCivil (y m d : Int) : Int :=
  let yy := if m ≤ 2 then y - 1 else y
  let era := (if 0 ≤ yy then yy else yy - 399) / 400
  let yoe := yy - era * 400
  let mp := (m + 9) % 12
  let doy := (153 * mp + 2) / 5 + d - 1
  let doe := yoe * 365 + yoe / 4 - yoe / 100 + doy
  era * 146097 + doe - 719468

/-- `new Date(year, month, day, hour, minute, second)` linearized to seconds
(month is the 0-based table value; a two-digit year means 1900+year in JS;
out-of-range day/hour/minute/second roll over, which the linear sum gives
for free; the constant local-timezone offset cancels in all comparisons). -/
def mkDateSec (year mon day hour minute second : Nat) : Int :=
  let y : Int := if year ≤ 99 then (year : Int) + 1900 else (year : Int)
  daysFromCivil y ((mon : Int) + 1) (day : Int) * 86400
    + (hour : Int) * 3600 + (minute : Int) * 60 + (second : Int)

/-- phantun `parseLogTime`: leftmost timestamp match, month looked up in the
table (an unknown month yields `null` in v1 and an always-false Invalid-Date
comparison in v2; both collapse to `none` here). -/
def parseLogTime (s : String) : Option Int :=
  (findTs s.data).bind fun g =>
    (monthTable g.mon).map fun m =>
      mkDateSec g.year m g.day g.hour g.minute g.second

/-! ### Severity filtering (phantun status.js v1, lines 150-172) -/

/-- The `levelPriority` object. -/
def levelPriority (s : String) : Option Nat :=
  if s = "trace" then some 0 else if s = "debug" then some 1
  else if s = "info" then some 2 else if s = "warn" then some 3
  else if s = "warning" then some 3 else if s = "error" then some 4
  else if s = "err" then some 4 else none

/-- JS `x || d` for a possibly-undefined number `x`: both `undefined` and
`0` are falsy and yield the default. -/
def jsOrNat (x : Option Nat) (d : Nat) : Nat :=
  match x with
  | some (n + 1) => n + 1
  | _ => d

/-- The alternatives of `/daemon\.(trace|debug|info|warn|warning|err|error)/`
in source order (JS alternation is first-match, so `warn` shadows `warning`
and `err` shadows `error`; all shadowed pairs share a priority). -/
def levelTokens : List String :=
  ["trace", "debug", "info", "warn", "warning", "err", "error"]

/-- First alternative matching at the head of `l`. -/
def firstLevelToken (l : List Char) : Option String :=
  levelTokens.find? fun t => startsWithPat t.data l

/-- Scan the (lowercased) line for `daemon.` followed by a level token; the
`/i` flag plus the code's `toLowerCase()` make lowercasing first
equivalent. -/
def detectLevelL : List Char → Option String
  | [] => none
  | l@(_ :: rest) =>
    if startsWithPat "daemon.".data l then
      match firstLevelToken (l.drop 7) with
      | some t => some t
      | none => detectLevelL rest
    else detectLevelL rest

/-- Detected facility level of a log line. -/
def detectLevel (line : String) : Option String :=
  detectLevelL (line.data.map Char.toLower)

/-- The per-line keep decision of the severity filter:
`levelPriority[logLevel] || 2` as threshold, `levelPriority[tok] || 2` for a
detected token, lines without a token kept. -/
def severityKeep (logLevel : String) (line : String) : Bool :=
  let sel := jsOrNat (levelPriority logLevel) 2
  match detectLevel line with
  | some tok => decide (jsOrNat (levelPriority tok) 2 ≥ sel)
  | none => true

/-- The severity-filter stage (`lines.filter(...)`). -/
def severityStage (logLevel : String) (lines : List String) : List String :=
  lines.filter (severityKeep logLevel)

/-! ### Cutoff filtering (phantun status.js v1 lines 174-188, v2 lines
770-777) -/

/-- Stand-in for `Date.prototype.toLocaleString` on the linearized time
value (locale presentation only; no theorem depends on its shape). -/
def toLocaleString (t : Int) : String := toString t

/-- Stand-in for `Date.prototype.toLocaleTimeString`. -/
def toLocaleTimeString (t : Int) : String := toString t

/-- The synthetic marker the v1 view prepends after a clear action. -/
def clearMarkerV1 (cutoff : Int) : String :=
  "=== Logs Cleared (" ++ toLocaleString cutoff ++ ") ==="

/-- The synthetic marker the v2 view prepends after a clear action. -/
def clearMarkerV2 (cutoff : Int) : String :=
  "=== Logs Cleared (" ++ toLocaleTimeString cutoff ++ ") ==="

/-- v1 per-line keep decision with a set cutoff: a parsed timestamp must be
strictly greater than the cutoff; a line with no parseable timestamp is kept
exactly when it contains the marker substring `===`. -/
def cutoffKeepV1 (cutoff : Int) (line : String) : Bool :=
  match parseLogTime line with
  | some t => decide (t > cutoff)
  | none => hasSub line "==="

/-- v2 per-line keep decision with a set cutoff
(`logTime && logTime > lastClearTime`): a line with no parseable timestamp
is always dropped. -/
def cutoffKeepV2 (cutoff : Int) (line : String) : Bool :=
  match parseLogTime line with
  | some t => decide (t > cutoff)
  | none => false

/-- v1 cutoff stage: filter, then `unshift` the fresh marker. -/
def cutoffStageV1 (lines : List String) (cutoff : Int) : List String :=
  clearMarkerV1 cutoff :: lines.filter (cutoffKeepV1 cutoff)

/-- v2 cutoff stage: filter, then `unshift` the fresh marker. -/
def cutoffStageV2 (lines : List String) (cutoff : Int) : List String :=
  clearMarkerV2 cutoff :: lines.filter (cutoffKeepV2 cutoff)

/-! ### Display window (phantun status.js, line 190:
`lines.slice(-150).map(self.cleanText).reverse()`) -/

/-- ECMAScript `Array.prototype.slice(-m)`: for `m = 0` the start index is
`-0 = +0` and the whole array is returned; for `m > 0` the start index is
`max(length - m, 0)`. -/
def jsSliceNeg (m : Nat) (xs : List String) : List String :=
  if m = 0 then xs else xs.drop (xs.length - m)

/-- The display stage of `getRecentLogs`, with the literal `150` abstracted
to `maxSize`: truncate with `slice(-maxSize)`, clean each line, reverse into
most-recent-first order. -/
def logWindow (lines : List String) (maxSize : Nat) : List String :=
  ((jsSliceNeg maxSize lines).map cleanText).reverse

/-- The last `maxSize` elements of a sequence, as the spec words it
("keep only the last `maxSize` lines of the filtered sequence"). -/
def specLastN (m : Nat) (xs : List String) : List String :=
  xs.drop (xs.length - m)

/-! ### Service status (phantun status.js lines 52-84 / part_004 lines
44-63: `getServiceStatus`; udp2raw status.js lines 33-61) -/

/-- A supervisor instance as reported by `service list` (`running` flag,
optional numeric pid, optional argv array). -/
structure SvcInst where
  running : Bool
  pid : Option Nat
  command : Option (List String)
deriving DecidableEq

/-- Entry of the `instances` map built by the phantun/part_004
`getServiceStatus` (`{pid: inst.pid, command: ...}`). -/
structure SvcEntry where
  pid : Option Nat
  command : String
deriving DecidableEq

/-- Captured output of `fs.exec` after `L.resolveDefault(..., {})`: a failed
call leaves `code` undefined. -/
structure ExecRes where
  code : Option Int
  stdout : String
deriving DecidableEq

/-- `Array.isArray(inst.command) ? inst.command.join(' ') : ''`. -/
def joinCommand (c : Option (List String)) : String :=
  match c with
  | some l => String.intercalate " " l
  | none => ""

/-- The instance-collection loop shared by the phantun and part_004
`getServiceStatus`: keep an entry per input key whose instance is non-null
and has its `running` flag set, in iteration order. -/
def collectRunning : List (String × Option SvcInst) → List (String × SvcEntry)
  | [] => []
  | (k, some inst) :: rest =>
    if inst.running then (k, ⟨inst.pid, joinCommand inst.command⟩) :: collectRunning rest
    else collectRunning rest
  | (_, none) :: rest => collectRunning rest

/-- Did the loop see any running instance (`isRunning` after the loop)? -/
def anyRunning (svc : List (String × Option SvcInst)) : Bool :=
  svc.any fun p =>
    match p.2 with
    | some inst => inst.running
    | none => false

/-- The pgrep fallback condition of the phantun `getServiceStatus`
(`psOutput && psOutput.code === 0 && psOutput.stdout &&
psOutput.stdout.trim()`). -/
def pgrepFallback (ps : ExecRes) : Bool :=
  ps.code == some 0 && ps.stdout ≠ "" && jsTrim ps.stdout ≠ ""

/-- Result shape of `getServiceStatus`. -/
structure SvcStatus where
  running : Bool
  instances : List (String × SvcEntry)
deriving DecidableEq

/-- phantun `getServiceStatus` (status.js lines 52-84): service-list scan
plus pgrep fallback when the scan found nothing running. -/
def getServiceStatus_phantun (svc : List (String × Option SvcInst))
    (ps : ExecRes) : SvcStatus :=
  { running := if anyRunning svc then true else pgrepFallback ps
    instances := collectRunning svc }

/-- part_004 `getServiceStatus` (lines 44-63): the same scan without a
fallback. -/
def getServiceStatus_udptunnel (svc : List (String × Option SvcInst)) :
    SvcStatus :=
  { running := anyRunning svc
    instances := collectRunning svc }

/-- Entry of the `instances` array built by the udp2raw `getServiceStatus`
(`{name: key, pid: inst.pid || 'N/A', ...}`; a missing or zero pid collapses
to the `'N/A'` fallback, modelled as `none`). -/
structure UEntry where
  name : String
  pid : Option Nat
deriving DecidableEq

/-- `inst.pid || 'N/A'` keeps only a nonzero numeric pid. -/
def jsPidOrNA (p : Option Nat) : Option Nat :=
  match p with
  | some (n + 1) => some (n + 1)
  | _ => none

/-- The entry-collection loop of the udp2raw `getServiceStatus`. -/
def collectU : List (String × SvcInst) → List UEntry
  | [] => []
  | (k, inst) :: rest =>
    if inst.running then ⟨k, jsPidOrNA inst.pid⟩ :: collectU rest
    else collectU rest

/-- udp2raw `getServiceStatus` result: the `running` flag and the pushed
entries. -/
def getServiceStatus_udp2raw (svc : List (String × SvcInst)) :
    Bool × List UEntry :=
  (svc.any (·.2.running), collectU svc)

/-! ### Per-tunnel status (the reconciliation step) -/

/-- The status labels a tunnel row can show. -/
inductive TStatus where
  | running
  | stopped
  | disabledT
  | serviceDisabled
deriving DecidableEq

/-- udp2raw `renderStatusTable` per-tunnel status (status.js lines 181-216;
the identical chain appears in the second part_004 variant, lines 635-661):
`Service Disabled` when the global flag is off, else `Disabled` when the
tunnel is disabled, else `Running` when a pushed instance's name equals the
tunnel id, else `Stopped`. -/
def renderStatusTable_status (globalEnabled : Bool) (disabled : Bool)
    (tid : String) (svc : List (String × SvcInst)) : TStatus :=
  let isRunning := (getServiceStatus_udp2raw svc).2.any (fun e => e.name == tid)
  if !globalEnabled then .serviceDisabled
  else if disabled then .disabledT
  else if isRunning then .running
  else .stopped

/-- JS truthiness of `instance.pid`: `undefined` and `0` are falsy. -/
def pidTruthy (p : Option Nat) : Bool :=
  match p with
  | some (_ + 1) => true
  | _ => false

/-- First entry with the given key (JS object property access; keys of a JS
object are unique). -/
def lookupKey (k : String) : List (String × SvcEntry) → Option SvcEntry
  | [] => none
  | (k', e) :: rest => if k' == k then some e else lookupKey k rest

/-- phantun `render` per-tunnel status (status.js v1 lines 412-427):
`instanceKey = mode + '_' + id`, `isActive = instance && instance.pid`,
`t.disabled ? Disabled : (isActive ? Running : Stopped)`; there is no global
enabled flag in this view. -/
def phantunTunnelStatus (disabled : Bool) (mode tid : String)
    (svc : List (String × Option SvcInst)) (ps : ExecRes) : TStatus :=
  let st := getServiceStatus_phantun svc ps
  let inst := lookupKey (mode ++ "_" ++ tid) st.instances
  if disabled then .disabledT
  else
    match inst with
    | some e => if pidTruthy e.pid then .running else .stopped
    | none => .stopped

/-! ### NAT-rule parsing (part_004 `checkIptables`, lines 154-189) -/

/-- Result record of `checkIptables`. -/
structure IptInfo where
  present : Bool
  text : String
  color : String
deriving DecidableEq

/-- Fuel-indexed worker for `extractChains`. -/
def extractChainsGo : Nat → List Char → List String
  | _, [] => []
  | 0, _ => []
  | fuel + 1, c :: rest =>
    if c = ':' && startsWithPat "udp2raw".data rest then
      String.mk (':' :: rest.takeWhile (fun d => !isWsC d)) ::
        extractChainsGo fuel (rest.dropWhile (fun d => !isWsC d))
    else extractChainsGo fuel rest

/-- `rawOutput.match(/:udp2raw[^\s]*/g)`: all non-overlapping matches, left
to right (an empty result models the `null` return). -/
def extractChains (raw : String) : List String :=
  extractChainsGo raw.data.length raw.data

/-- The chain names shown: each match with its leading `:` removed. -/
def chainNames (raw : String) : List String :=
  (extractChains raw).map fun s => s.drop 1

/-- part_004 `checkIptables` on the captured `iptables-save` output: named
chains are authoritative; otherwise a generic `udp2raw` substring; otherwise
`DROP` plus `RST`; otherwise no rules. -/
def checkIptables (raw : String) : IptInfo :=
  if extractChains raw ≠ [] then
    { present := true
      text := "Active: " ++ String.intercalate ", " (chainNames raw)
      color := "#5cb85c" }
  else if hasSub raw "udp2raw" then
    { present := true, text := "Active (Rules Detected)", color := "#5cb85c" }
  else if hasSub raw "DROP" && hasSub raw "RST" then
    { present := true, text := "Active (RST Blocking Detected)"
      color := "#5cb85c" }
  else
    { present := false, text := "No rules detected", color := "#f0ad4e" }

/-! ### TUN interface parsing (phantun `checkTunInterfaces`, status.js lines
320-359) -/

/-- One parsed virtual interface. -/
structure InterfaceFact where
  name : String
  state : String
  ipv4 : List String
  ipv6 : List String
deriving DecidableEq

/-- `line.match(/^\d+:\s+(tun\d+):/)`: anchored at the line start; returns
the captured interface name. -/
def ifaceOpen (line : String) : Option String :=
  let l := line.data
  let ds := l.takeWhile isDigitC
  if ds.isEmpty then none
  else
    match l.drop ds.length with
    | ':' :: r1 =>
      match eatWs1 r1 with
      | some r2 =>
        if startsWithPat "tun".data r2 then
          let ds2 := (r2.drop 3).takeWhile isDigitC
          if ds2.isEmpty then none
          else
            match (r2.drop 3).drop ds2.length with
            | ':' :: _ => some (String.mk ('t' :: 'u' :: 'n' :: ds2))
            | _ => none
        else none
      | none => none
    | _ => none

/-- Attempt `/inet\s+([\d.]+\/\d+)/` at the head of the list; returns the
captured address. -/
def ipv4At (l : List Char) : Option String :=
  if startsWithPat "inet".data l then
    match eatWs1 (l.drop 4) with
    | some r1 =>
      let run := r1.takeWhile (fun c => isDigitC c || c = '.')
      if run.isEmpty then none
      else
        match r1.drop run.length with
        | '/' :: r2 =>
          let ds := r2.takeWhile isDigitC
          if ds.isEmpty then none else some (String.mk (run ++ '/' :: ds))
        | _ => none
    | none => none
  else none

/-- Attempt `/inet6\s+([a-f0-9:]+\/\d+)/i` at the head of the list; the
class test is on the lowercased character, the capture keeps the original
characters. -/
def ipv6At (l : List Char) : Option String :=
  if startsWithPat "inet6".data ((l.take 5).map Char.toLower) then
    match eatWs1 (l.drop 5) with
    | some r1 =>
      let run := r1.takeWhile fun c =>
        (c.toLower.isDigit || (('a' ≤ c.toLower) && (c.toLower ≤ 'f')) || c = ':')
      if run.isEmpty then none
      else
        match r1.drop run.length with
        | '/' :: r2 =>
          let ds := r2.takeWhile isDigitC
          if ds.isEmpty then none else some (String.mk (run ++ '/' :: ds))
        | _ => none
    | none => none
  else none

/-- Leftmost `inet` address match in a line. -/
def findIpv4 : List Char → Option String
  | [] => none
  | l@(_ :: rest) =>
    match ipv4At l with
    | some a => some a
    | none => findIpv4 rest

/-- Leftmost `inet6` address match in a line. -/
def findIpv6 : List Char → Option String
  | [] => none
  | l@(_ :: rest) =>
    match ipv6At l with
    | some a => some a
    | none => findIpv6 rest

/-- Append the addresses found in `line` to the open interface context. -/
def addAddrs (f : InterfaceFact) (line : String) : InterfaceFact :=
  let f1 :=
    match findIpv4 line.data with
    | some a => { f with ipv4 := f.ipv4 ++ [a] }
    | none => f
  match findIpv6 line.data with
  | some a => { f1 with ipv6 := f1.ipv6 ++ [a] }
  | none => f1

/-- Open a new interface context from an interface-heading line
(state `UP` iff the whole line contains the substring `UP`). -/
def openIface (line : String) : Option InterfaceFact :=
  (ifaceOpen line).map fun nm =>
    { name := nm, state := if hasSub line "UP" then "UP" else "DOWN"
      ipv4 := [], ipv6 := [] }

/-- Worker for `splitLines`, accumulating the current line in reverse. -/
def splitLinesGo : List Char → List Char → List String
  | [], acc => [String.mk acc.reverse]
  | c :: rest, acc =>
    if c = '\n' then String.mk acc.reverse :: splitLinesGo rest []
    else splitLinesGo rest (c :: acc)

/-- JS `String.prototype.split('\n')` (an empty string yields `[""]`). -/
def splitLines (s : String) : List String := splitLinesGo s.data []

/-- The line scanner of `checkTunInterfaces`: an interface-heading line
closes the previous context, opens a new one, and (like any other line under
an open context) contributes any address matches on the line itself; address
lines with no open context are ignored. -/
def scanIfaces : List String → Option InterfaceFact → List InterfaceFact
  | [], cur => cur.toList
  | l :: ls, cur =>
    match openIface l with
    | some f => cur.toList ++ scanIfaces ls (some (addAddrs f l))
    | none =>
      match cur with
      | some c => scanIfaces ls (some (addAddrs c l))
      | none => scanIfaces ls none

/-- The interface facts extracted from the `ip addr show` output. -/
def parseTunInterfaces (s : String) : List InterfaceFact :=
  scanIfaces (splitLines s) none

/-- `checkTunInterfaces`: `tunInterfaces.length > 0 ? tunInterfaces : null`.
The empty fact list is surfaced as the `null` sentinel `none`. -/
def checkTunInterfaces (s : String) : Option (List InterfaceFact) :=
  let t := parseTunInterfaces s
  if t.length > 0 then some t else none

/-! ### Severity classification for display (phantun `getLogColor`,
status.js v1 lines 40-50) -/

/-- Keyword-based line colour: error keywords, else warn keywords, else the
default info colour. -/
def getLogColor (line : String) : String :=
  let lower := String.mk (line.data.map Char.toLower)
  if hasSub lower "err" || hasSub lower "error" ||
      hasSub lower "fail" || hasSub lower "panic" then "#ff6b6b"
  else if hasSub lower "warn" || hasSub lower "warning" then "#ffd93d"
  else "#ddd"

/-! ### Helper lemmas -/

theorem string_mk_data (s : String) : String.mk s.data = s := by
  cases s; rfl

theorem hasPat_false_of_no_trig (trig : Char → Bool)
    (recog : List Char → Option Nat) (l : List Char)
    (h : l.all (fun c => !trig c) = true) :
    hasPat trig recog l = false := by
  induction l with
  | nil => rfl
  | cons c rest ih =>
    simp only [List.all_cons, Bool.and_eq_true, Bool.not_eq_true'] at h
    simp [hasPat, h.1, ih h.2]


theorem collectU_any (svc : List (String × SvcInst)) (tid : String) :
    (collectU svc).any (fun e => e.name == tid) =
      svc.any (fun p => p.1 == tid && p.2.running) := by
  induction svc with
  | nil => rfl
  | cons p rest ih =>
    obtain ⟨k, inst⟩ := p
    by_cases hr : inst.running
    · simp [collectU, hr, ih, Bool.and_comm]
    · simp [collectU, hr, ih]

theorem collectRunning_mem (svc : List (String × Option SvcInst))
    (k : String) (e : SvcEntry) (h : (k, e) ∈ collectRunning svc) :
    ∃ i : SvcInst, (k, some i) ∈ svc ∧ i.running = true ∧ e.pid = i.pid := by
  induction svc with
  | nil => simp [collectRunning] at h
  | cons p rest ih =>
    obtain ⟨k', oi⟩ := p
    cases oi with
    | none =>
      obtain ⟨i, hmem, hrun, hpid⟩ := ih h
      exact ⟨i, List.mem_cons_of_mem _ hmem, hrun, hpid⟩
    | some i =>
      by_cases hr : i.running
      · rw [collectRunning, if_pos hr] at h
        rcases List.mem_cons.mp h with heq | hmem
        · cases heq
          exact ⟨i, List.mem_cons_self _ _, hr, rfl⟩
        · obtain ⟨j, hmem2, hrun, hpid⟩ := ih hmem
          exact ⟨j, List.mem_cons_of_mem _ hmem2, hrun, hpid⟩
      · rw [collectRunning, if_neg hr] at h
        obtain ⟨j, hmem2, hrun, hpid⟩ := ih h
        exact ⟨j, List.mem_cons_of_mem _ hmem2, hrun, hpid⟩

theorem anyRunning_of_collect_ne_nil (svc : List (String × Option SvcInst))
    (h : collectRunning svc ≠ []) : anyRunning svc = true := by
  induction svc with
  | nil => simp [collectRunning] at h
  | cons p rest ih =>
    obtain ⟨k', oi⟩ := p
    cases oi with
    | none =>
      simp only [anyRunning, List.any_cons]
      exact Bool.or_eq_true _ _ ▸ Or.inr (ih h)
    | some i =>
      by_cases hr : i.running
      · simp [anyRunning, hr]
      · rw [collectRunning, if_neg hr] at h
        simp only [anyRunning, List.any_cons, hr, Bool.false_or]
        exact ih h

theorem lookupKey_collect_none (svc : List (String × Option SvcInst))
    (k : String) (hk : k ∉ svc.map Prod.fst) :
    lookupKey k (collectRunning svc) = none := by
  induction svc with
  | nil => rfl
  | cons p rest ih =>
    obtain ⟨k', oi⟩ := p
    simp only [List.map_cons, List.mem_cons] at hk
    push_neg at hk
    obtain ⟨hne, hrest⟩ := hk
    cases oi with
    | none => exact ih hrest
    | some i =>
      by_cases hr : i.running
      · rw [collectRunning, if_pos hr, lookupKey]
        rw [if_neg (by simpa using fun h => hne h.symm)]
        exact ih hrest
      · rw [collectRunning, if_neg hr]
        exact ih hrest

theorem lookup_collect_pid_iff (svc : List (String × Option SvcInst))
    (k : String) (hnd : (svc.map Prod.fst).Nodup) :
    (∃ e, lookupKey k (collectRunning svc) = some e ∧ pidTruthy e.pid = true) ↔
      (∃ i : SvcInst, (k, some i) ∈ svc ∧ i.running = true ∧
        pidTruthy i.pid = true) := by
  induction svc with
  | nil => simp [collectRunning, lookupKey]
  | cons p rest ih =>
    obtain ⟨k', oi⟩ := p
    simp only [List.map_cons, List.nodup_cons] at hnd
    obtain ⟨hknotin, hndrest⟩ := hnd
    by_cases hkk : k' = k
    · subst hkk
      cases oi with
      | none =>
        rw [show collectRunning ((k', none) :: rest) = collectRunning rest from rfl,
          lookupKey_collect_none rest k' hknotin]
        constructor
        · rintro ⟨e, he, _⟩; cases he
        · rintro ⟨i, hmem, hrun, hpid⟩
          rcases List.mem_cons.mp hmem with heq | hmem2
          · cases heq
          · exact absurd (List.mem_map.mpr ⟨_, hmem2, rfl⟩) hknotin
      | some i =>
        by_cases hr : i.running
        · rw [collectRunning, if_pos hr, lookupKey, if_pos (by simp)]
          constructor
          · rintro ⟨e, he, hpid⟩
            cases he
            exact ⟨i, List.mem_cons_self _ _, hr, hpid⟩
          · rintro ⟨j, hmem, hrun, hpid⟩
            rcases List.mem_cons.mp hmem with heq | hmem2
            · cases heq
              exact ⟨_, rfl, hpid⟩
            · exact absurd (List.mem_map.mpr ⟨_, hmem2, rfl⟩) hknotin
        · rw [collectRunning, if_neg hr, lookupKey_collect_none rest k' hknotin]
          constructor
          · rintro ⟨e, he, _⟩; cases he
          · rintro ⟨j, hmem, hrun, hpid⟩
            rcases List.mem_cons.mp hmem with heq | hmem2
            · cases heq; exact absurd hrun hr
            · exact absurd (List.mem_map.mpr ⟨_, hmem2, rfl⟩) hknotin
    · have hstep :
          lookupKey k (collectRunning ((k', oi) :: rest)) =
            lookupKey k (collectRunning rest) := by
        cases oi with
        | none => rfl
        | some i =>
          by_cases hr : i.running
          · rw [collectRunning, if_pos hr, lookupKey, if_neg (by simpa using hkk)]
          · rw [collectRunning, if_neg hr]
      rw [hstep]
      rw [ih hndrest]
      constructor
      · rintro ⟨i, hmem, hrun, hpid⟩
        exact ⟨i, List.mem_cons_of_mem _ hmem, hrun, hpid⟩
      · rintro ⟨i, hmem, hrun, hpid⟩
        rcases List.mem_cons.mp hmem with heq | hmem2
        · exact absurd (congrArg Prod.fst heq).symm hkk
        · exact ⟨i, hmem2, hrun, hpid⟩

theorem scanIfaces_nil_of_no_open (ls : List String)
    (h : ∀ l ∈ ls, openIface l = none) : scanIfaces ls none = [] := by
  induction ls with
  | nil => rfl
  | cons l rest ih =>
    rw [scanIfaces, h l (List.mem_cons_self _ _)]
    exact ih fun l' hl' => h l' (List.mem_cons_of_mem _ hl')

/-! ### Claim theorems -/

/-- C2: in the per-tunnel status computation of the udp2raw view (and the
identical chain in the second part_004 variant), `ServiceDisabled` (global
enabled flag false) takes precedence over per-tunnel `Disabled`, which takes
precedence over `Stopped`; in particular a tunnel with
`globalEnabled = false`, `enabled = true` and a matching running live
instance is shown `Service Disabled`, not `Running`. -/
theorem status_precedence :
    (∀ (dis : Bool) (tid : String) (svc : List (String × SvcInst)),
        renderStatusTable_status false dis tid svc = TStatus.serviceDisabled)
    ∧ (∀ (tid : String) (svc : List (String × SvcInst)),
        renderStatusTable_status true true tid svc = TStatus.disabledT)
    ∧ renderStatusTable_status false false "t1"
        [("t1", { running := true, pid := some 3, command := none })] =
        TStatus.serviceDisabled
    ∧ renderStatusTable_status false false "t1"
        [("t1", { running := true, pid := some 3, command := none })] ≠
        TStatus.running
    ∧ renderStatusTable_status true false "t1"
        [("t1", { running := true, pid := some 3, command := none })] =
        TStatus.running
    ∧ renderStatusTable_status true false "t1" [] = TStatus.stopped :=
  ⟨fun _ _ _ => rfl, fun _ _ => rfl, by decide, by decide, by decide, by decide⟩

/-- C5 (counterexample): the display stage with `maxSize = 0` does not yield
an empty sequence — ECMAScript `slice(-0)` is `slice(0)`, so the whole
(reversed, cleaned) sequence comes back. -/
theorem logWindow_zero_nonempty :
    logWindow ["x", "y"] 0 = ["y", "x"] ∧ logWindow ["x", "y"] 0 ≠ [] := by
  decide

/-- C5 (amended): a display-stage update with `maxSize = 0` returns, without
error, the entire cleaned sequence in most-recent-first order; the displayed
sequence is empty exactly when the input sequence is. -/
theorem logWindow_zero_full_reverse :
    ∀ lines : List String,
      logWindow lines 0 = (lines.map cleanText).reverse
      ∧ (logWindow lines 0 = [] ↔ lines = []) := by
  intro lines
  refine ⟨rfl, ?_⟩
  simp [logWindow, jsSliceNeg]

/-- C7 (code slip): with the configured minimum level `trace`, a
`daemon.debug` line is dropped, although the code's own `levelPriority`
table assigns `trace` the lowest ordinal 0 — `levelPriority[logLevel] || 2`
discards the falsy 0 and turns the `trace` threshold into the `info`
threshold 2. The same line is kept at threshold `debug`. -/
theorem severity_trace_threshold_drops_debug :
    severityKeep "trace" "Sat Jan 31 22:05:48 2026 daemon.debug phantun[1]: x"
      = false
    ∧ severityKeep "debug" "Sat Jan 31 22:05:48 2026 daemon.debug phantun[1]: x"
      = true
    ∧ levelPriority "trace" = some 0
    ∧ jsOrNat (levelPriority "trace") 2 = 2 := by
  refine ⟨by decide, by decide, by decide, by decide⟩

/-- C8: NAT-rule parsing first extracts dedicated `:udp2raw...` chain names
and, when at least one is present, short-circuits to reporting exactly those
names, regardless of the generic substring fallbacks; on the input
`":udp2rawAbC1_Chain - [0:0]"` it extracts exactly one named-chain fact with
chain name `udp2rawAbC1_Chain`. -/
theorem checkIptables_named_chain_shortcircuit :
    checkIptables ":udp2rawAbC1_Chain - [0:0]" =
      { present := true, text := "Active: udp2rawAbC1_Chain"
        color := "#5cb85c" }
    ∧ chainNames ":udp2rawAbC1_Chain - [0:0]" = ["udp2rawAbC1_Chain"]
    ∧ ∀ raw : String, extractChains raw ≠ [] →
        checkIptables raw =
          { present := true
            text := "Active: " ++ String.intercalate ", " (chainNames raw)
            color := "#5cb85c" } := by
  refine ⟨by decide, by decide, fun raw h => ?_⟩
  unfold checkIptables
  rw [if_pos h]

/-- C8 (witness): the short-circuit branch applied to a concrete dump with
two named chains and a generic `DROP`/`RST` line that the fallback would
otherwise match. -/
theorem checkIptables_named_chain_shortcircuit_witness :
    checkIptables ":udp2rawA x\n-A INPUT DROP RST\n:udp2rawB y" =
      { present := true
        text := "Active: " ++ String.intercalate ", "
          (chainNames ":udp2rawA x\n-A INPUT DROP RST\n:udp2rawB y")
        color := "#5cb85c" }
    ∧ chainNames ":udp2rawA x\n-A INPUT DROP RST\n:udp2rawB y" =
        ["udp2rawA", "udp2rawB"] :=
  ⟨checkIptables_named_chain_shortcircuit.2.2 _ (by decide), by decide⟩

/-- C3 (counterexample): the v2 cutoff stage drops a synthetic marker line
present in the input (it has no parseable timestamp), while the claim says
every such marker line is retained; the v1 stage, by contrast, keeps it. -/
theorem cutoffV2_drops_marker_counterexample :
    cutoffStageV2 ["=== Logs Cleared (0) ==="] 100 = [clearMarkerV2 100]
    ∧ "=== Logs Cleared (0) ===" ∉
        cutoffStageV2 ["=== Logs Cleared (0) ==="] 100
    ∧ parseLogTime "=== Logs Cleared (0) ===" = none
    ∧ cutoffStageV1 ["=== Logs Cleared (0) ==="] 100 =
        [clearMarkerV1 100, "=== Logs Cleared (0) ==="] := by
  refine ⟨by decide, by decide, by decide, by decide⟩

/-- C3 (amended): with a set cutoff, both cutoff stages retain exactly the
lines whose parsed timestamp is strictly greater than the cutoff and prepend
one synthetic marker carrying the cutoff's rendered time; they differ on
timestamp-less lines: v1 keeps such a line exactly when it contains the
marker substring `===`, v2 drops every such line. -/
theorem cutoff_stage_characterization :
    (∀ (line : String) (cutoff : Int),
        cutoffKeepV1 cutoff line = true ↔
          ((∃ t, parseLogTime line = some t ∧ cutoff < t)
            ∨ (parseLogTime line = none ∧ hasSub line "===" = true)))
    ∧ (∀ (lines : List String) (cutoff : Int),
        cutoffStageV1 lines cutoff =
          clearMarkerV1 cutoff :: lines.filter (cutoffKeepV1 cutoff))
    ∧ (∀ (line : String) (cutoff : Int),
        cutoffKeepV2 cutoff line = true ↔
          (∃ t, parseLogTime line = some t ∧ cutoff < t))
    ∧ (∀ (lines : List String) (cutoff : Int),
        cutoffStageV2 lines cutoff =
          clearMarkerV2 cutoff :: lines.filter (cutoffKeepV2 cutoff)) := by
  refine ⟨fun line c => ?_, fun _ _ => rfl, fun line c => ?_, fun _ _ => rfl⟩
  · unfold cutoffKeepV1
    cases h : parseLogTime line with
    | some t => simp [h, gt_iff_lt]
    | none => simp [h]
  · unfold cutoffKeepV2
    cases h : parseLogTime line with
    | some t => simp [h, gt_iff_lt]
    | none => simp [h]

/-- C4 (counterexample): at `maxSize = 0` the displayed window is not the
reversal of the last 0 lines (which would be empty): JS `slice(-0)`
degenerates to the whole sequence. -/
theorem logWindow_zero_not_lastN :
    logWindow ["a"] 0 ≠ ((specLastN 0 ["a"]).map cleanText).reverse := by
  decide

/-- C4 (amended): for every positive `maxSize`, the displayed window is the
last `maxSize` lines of the filtered (chronological) sequence, cleaned and
then reversed into most-recent-first order — equivalently, the first
`maxSize` lines of the cleaned reversed sequence, showing that truncation
happens chronologically before the display reversal. -/
theorem logWindow_truncate_before_reverse :
    ∀ (lines : List String) (m : Nat), 0 < m →
      logWindow lines m = ((specLastN m lines).map cleanText).reverse
      ∧ logWindow lines m = ((lines.map cleanText).reverse).take m := by
  intro lines m hm
  have hslice : jsSliceNeg m lines = specLastN m lines := by
    unfold jsSliceNeg specLastN
    rw [if_neg (Nat.pos_iff_ne_zero.mp hm)]
  have h1 : logWindow lines m = ((specLastN m lines).map cleanText).reverse := by
    unfold logWindow
    rw [hslice]
  refine ⟨h1, ?_⟩
  rw [h1]
  have h2 : (specLastN m lines).map cleanText =
      List.rtake (lines.map cleanText) m := by
    unfold specLastN List.rtake
    rw [List.map_drop, List.length_map]
  rw [h2, List.rtake_eq_reverse_take_reverse, List.reverse_reverse]

/-- C4 (witness): the amended statement at three lines and `maxSize = 2`. -/
theorem logWindow_truncate_before_reverse_witness :
    0 < 2
    ∧ (logWindow ["a", "b", "c"] 2 =
        ((specLastN 2 ["a", "b", "c"]).map cleanText).reverse
      ∧ logWindow ["a", "b", "c"] 2 =
        (( ["a", "b", "c"].map cleanText).reverse).take 2) :=
  ⟨by decide, logWindow_truncate_before_reverse ["a", "b", "c"] 2 (by decide)⟩

/-- C6 (counterexample): both stripping functions change control-code-free
strings — `cleanText` trims surrounding whitespace, and `stripAnsi`
additionally deletes bare colour residues such as `[32m` that contain no
control character at all. -/
theorem strip_not_identity_counterexample :
    cleanText " a" = "a" ∧ " a" ≠ "a"
    ∧ stripAnsi "x[32m" = "x" ∧ "x[32m" ≠ "x" := by
  refine ⟨by decide, by decide, by decide, by decide⟩

/-- C6 (amended): stripping is the identity on strings that contain no ESC
byte, are already trimmed, and (for `stripAnsi`) contain no bare
`[digits;]m` colour residue. -/
theorem strip_identity_on_clean_trimmed :
    (∀ s : String, s.data.all (fun c => !(c == escC)) = true →
        jsTrimL s.data = s.data → cleanText s = s)
    ∧ (∀ s : String, s.data.all (fun c => !(c == escC)) = true →
        hasPat (· = '[') colorTail s.data = false →
        jsTrimL s.data = s.data → stripAnsi s = s) := by
  have hesc : ∀ (s : String), s.data.all (fun c => !(c == escC)) = true →
      ∀ recog : List Char → Option Nat, scrub (· = escC) recog s.data = s.data := by
    intro s h recog
    refine scrub_of_not_hasPat _ _ _ (hasPat_false_of_no_trig _ _ _ ?_)
    simpa using h
  constructor
  · intro s h htrim
    by_cases hs : s = ""
    · rw [cleanText, if_pos hs, hs]
    · rw [cleanText, if_neg hs]
      unfold stripCSI
      rw [hesc s h, htrim, string_mk_data]
  · intro s h hcolor htrim
    by_cases hs : s = ""
    · rw [stripAnsi, if_pos hs, hs]
    · rw [stripAnsi, if_neg hs]
      unfold stripCSI stripOSC stripColor stripEsc
      rw [hesc s h, hesc s h, scrub_of_not_hasPat _ _ _ hcolor, hesc s h,
        htrim, string_mk_data]

/-- C6 (witness): both identity statements applied at concrete trimmed,
control-code-free strings. -/
theorem strip_identity_on_clean_trimmed_witness :
    cleanText "abc" = "abc" ∧ stripAnsi "tun0: UP" = "tun0: UP" :=
  ⟨strip_identity_on_clean_trimmed.1 "abc" (by decide) (by decide),
   strip_identity_on_clean_trimmed.2 "tun0: UP" (by decide) (by decide)
     (by decide)⟩

/-- C9 (counterexample): on a blob with no interface-heading match,
`checkTunInterfaces` returns the `null` sentinel rather than an empty fact
list — the internal fact list is empty, but the surfaced result is `none`,
not `some []`. -/
theorem checkTunInterfaces_null_counterexample :
    checkTunInterfaces "eth0 only, no tun devices in this blob" = none
    ∧ (none : Option (List InterfaceFact)) ≠ some [] := by
  refine ⟨by decide, by decide⟩

/-- C9 (amended): each extractor is a total function; with no matching
pattern the interface parser produces the empty fact list, surfaced by
`checkTunInterfaces` as the `null` sentinel, and `checkIptables` produces
its non-error `present = false` record; severity classification always
returns one of its three colours. -/
theorem extractors_total_empty_on_no_match :
    (∀ s : String, (splitLines s).all (fun l => (openIface l).isNone) = true →
        parseTunInterfaces s = [] ∧ checkTunInterfaces s = none)
    ∧ (∀ raw : String, extractChains raw = [] →
        hasSub raw "udp2raw" = false →
        (hasSub raw "DROP" && hasSub raw "RST") = false →
        checkIptables raw =
          { present := false, text := "No rules detected"
            color := "#f0ad4e" })
    ∧ (∀ line : String, getLogColor line = "#ff6b6b"
        ∨ getLogColor line = "#ffd93d" ∨ getLogColor line = "#ddd") := by
  refine ⟨fun s h => ?_, fun raw h1 h2 h3 => ?_, fun line => ?_⟩
  · have hparse : parseTunInterfaces s = [] := by
      unfold parseTunInterfaces
      refine scanIfaces_nil_of_no_open _ fun l hl => ?_
      have := List.all_eq_true.mp h l hl
      simpa [Option.isNone_iff_eq_none] using this
    refine ⟨hparse, ?_⟩
    unfold checkTunInterfaces
    simp [hparse]
  · unfold checkIptables
    rw [if_neg (by simpa using h1), if_neg (by simp [h2]), if_neg (by simp [h3])]
  · simp only [getLogColor]
    split_ifs <;> simp

/-- C9 (witness): the no-match branches applied at concrete blobs. -/
theorem extractors_total_empty_on_no_match_witness :
    (parseTunInterfaces "lo: loopback\n    inet 127.0.0.1/8" = []
      ∧ checkTunInterfaces "lo: loopback\n    inet 127.0.0.1/8" = none)
    ∧ checkIptables "-A FORWARD -j ACCEPT" =
        { present := false, text := "No rules detected", color := "#f0ad4e" } :=
  ⟨extractors_total_empty_on_no_match.1 _ (by decide),
   extractors_total_empty_on_no_match.2.1 _ (by decide) (by decide) (by decide)⟩

/-- C10: the `instances` map returned by the phantun and part_004
`getServiceStatus` contains only supervisor instances whose `running` flag
is set (the entry's pid is copied from such an instance), and whenever the
map is non-empty the returned service-level `running` flag is true. -/
theorem serviceStatus_instances_running_invariant :
    (∀ (svc : List (String × Option SvcInst)) (ps : ExecRes),
        (∀ (k : String) (e : SvcEntry),
            (k, e) ∈ (getServiceStatus_phantun svc ps).instances →
            ∃ i : SvcInst, (k, some i) ∈ svc ∧ i.running = true ∧ e.pid = i.pid)
        ∧ ((getServiceStatus_phantun svc ps).instances ≠ [] →
            (getServiceStatus_phantun svc ps).running = true))
    ∧ (∀ svc : List (String × Option SvcInst),
        (∀ (k : String) (e : SvcEntry),
            (k, e) ∈ (getServiceStatus_udptunnel svc).instances →
            ∃ i : SvcInst, (k, some i) ∈ svc ∧ i.running = true ∧ e.pid = i.pid)
        ∧ ((getServiceStatus_udptunnel svc).instances ≠ [] →
            (getServiceStatus_udptunnel svc).running = true)) := by
  constructor
  · intro svc ps
    refine ⟨fun k e h => collectRunning_mem svc k e h, fun h => ?_⟩
    have : anyRunning svc = true := anyRunning_of_collect_ne_nil svc h
    simp [getServiceStatus_phantun, this]
  · intro svc
    refine ⟨fun k e h => collectRunning_mem svc k e h, fun h => ?_⟩
    exact anyRunning_of_collect_ne_nil svc h

/-- C10 (witness): the invariant applied at a concrete supervisor response
with one running instance. -/
theorem serviceStatus_instances_running_invariant_witness :
    (∃ i : SvcInst,
        ("client_t1", some i) ∈
          [("client_t1",
            some ({ running := true, pid := some 42, command := none } :
              SvcInst))]
        ∧ i.running = true
        ∧ (({ pid := some 42, command := "" } : SvcEntry)).pid = i.pid)
    ∧ (getServiceStatus_phantun
        [("client_t1", some { running := true, pid := some 42, command := none })]
        ⟨none, ""⟩).running = true :=
  ⟨(serviceStatus_instances_running_invariant.1 _ ⟨none, ""⟩).1 "client_t1"
      ⟨some 42, ""⟩ (by decide),
   (serviceStatus_instances_running_invariant.1 _ ⟨none, ""⟩).2 (by decide)⟩

/-- C1 (counterexample): in the phantun view, a tunnel that is enabled and
has a matching live instance with its `running` flag set is shown `Stopped`
when that instance reports no pid — `isActive = instance && instance.pid`
demands a truthy pid on top of the claim's conditions (and this view
consults no global enabled flag at all). -/
theorem phantun_running_requires_pid_counterexample :
    phantunTunnelStatus false "client" "t1"
        [("client_t1", some { running := true, pid := none, command := none })]
        ⟨some 1, ""⟩ = TStatus.stopped
    ∧ ("client_t1",
        some ({ running := true, pid := none, command := none } : SvcInst)) ∈
        [("client_t1",
          some ({ running := true, pid := none, command := none } : SvcInst))]
    ∧ TStatus.stopped ≠ TStatus.running := by
  refine ⟨by decide, by decide, by decide⟩

/-- C1 (amended): in the udp2raw view the claimed invariant holds as stated:
a tunnel is `Running` iff the global flag is on, the tunnel is enabled, and
a live instance with matching key has its `running` flag set.  In the
phantun view there is no global flag, and `Running` holds iff the tunnel is
enabled and a live instance under the key `mode_id` has its `running` flag
set and a truthy (present, nonzero) pid. -/
theorem tunnel_running_iff_amended :
    (∀ (ge dis : Bool) (tid : String) (svc : List (String × SvcInst)),
        renderStatusTable_status ge dis tid svc = TStatus.running ↔
          (ge = true ∧ dis = false ∧
            svc.any (fun p => p.1 == tid && p.2.running) = true))
    ∧ (∀ (dis : Bool) (mode tid : String)
        (svc : List (String × Option SvcInst)) (ps : ExecRes),
        (svc.map Prod.fst).Nodup →
        (phantunTunnelStatus dis mode tid svc ps = TStatus.running ↔
          (dis = false ∧ ∃ i : SvcInst,
            (mode ++ "_" ++ tid, some i) ∈ svc ∧ i.running = true ∧
              pidTruthy i.pid = true))) := by
  constructor
  · intro ge dis tid svc
    unfold renderStatusTable_status
    rw [show (getServiceStatus_udp2raw svc).2 = collectU svc from rfl]
    cases ge with
    | false => simp
    | true =>
      cases dis with
      | true => simp
      | false =>
        rw [collectU_any svc tid]
        cases h : svc.any (fun p => p.1 == tid && p.2.running) <;> simp [h]
  · intro dis mode tid svc ps hnd
    unfold phantunTunnelStatus
    dsimp only
    rw [show (getServiceStatus_phantun svc ps).instances = collectRunning svc
      from rfl]
    cases dis with
    | true => simp
    | false =>
      simp only [if_neg (by decide : ¬(false = true)), true_and,
        Bool.false_eq_true]
      rw [← lookup_collect_pid_iff svc (mode ++ "_" ++ tid) hnd]
      cases hl : lookupKey (mode ++ "_" ++ tid) (collectRunning svc) with
      | none => simp [hl]
      | some e =>
        cases hp : pidTruthy e.pid with
        | false => simp [hl, hp]
        | true => simp [hl, hp]

/-- C1 (witness): both directions of the amended invariant at concrete
inputs — a running udp2raw tunnel and a running phantun tunnel whose
instance has pid 7. -/
theorem tunnel_running_iff_amended_witness :
    renderStatusTable_status true false "t1"
      [("t1", { running := true, pid := some 5, command := none })] =
      TStatus.running
    ∧ phantunTunnelStatus false "client" "t1"
        [("client_t1", some { running := true, pid := some 7, command := none })]
        ⟨none, ""⟩ = TStatus.running :=
  ⟨(tunnel_running_iff_amended.1 true false "t1" _).mpr
      ⟨rfl, rfl, by decide⟩,
   (tunnel_running_iff_amended.2 false "client" "t1" _ ⟨none, ""⟩
      (by decide)).mpr
      ⟨rfl, { running := true, pid := some 7, command := none },
        by decide, rfl, by decide⟩⟩
